import Mathlib

/-!
Verification of the tsserver project-errors core (project model, project
service, deferred diagnostics scheduler, session event emission) against
its natural-language specification. The server implementation is not part
of the supplied sources (only its unit tests are), so the operations below
are modelled from the specification, faithful to its words; the unit tests
in src/src/testRunner/unittests/projectErrors.ts fix the concrete expected
behaviour that the model reproduces.
-/

namespace TsProjectSystem

/-- A 1-based line/offset position, as in the wire protocol's Location. -/
structure Location where
  line : Nat
  offset : Nat
deriving DecidableEq, Repr

/-- Diagnostic message identities used by the modelled scenarios.
`File_0_not_found p` renders as the text `File <quote>p<quote> not found.`
and `lbraceExpected` renders as the config parser text for a missing
opening brace (the message the tests spell as starting with a quoted
opening brace followed by the word expected). -/
inductive DiagnosticMessage where
  | File_0_not_found (fileName : String)
  | lbraceExpected
deriving DecidableEq, Repr

/-- A structured diagnostic: message, the file it is tagged with (if any),
and an optional source span. -/
structure Diagnostic where
  messageText : DiagnosticMessage
  file : Option String := none
  start : Option Location := none
  stop : Option Location := none
deriving DecidableEq, Repr

/-- Compiler options; only the fields the scenarios vary are modelled. -/
structure CompilerOptions where
  module : Option String := none
deriving DecidableEq, Repr

/-- The three project variants. -/
inductive ProjectKind where
  | inferredKind
  | configuredKind
  | externalKind
deriving DecidableEq, Repr

/-- Modelled from the spec: a Project owns an identity (project name), a
root-file set, compiler options and a cached list of project-level errors.
The `id` field witnesses object identity across reloads (the spec demands
no destruction/recreation on config corruption). -/
structure Project where
  kind : ProjectKind
  projectName : String
  id : Nat
  rootFileNames : List String
  options : CompilerOptions
  projectErrors : List Diagnostic
deriving DecidableEq, Repr

/-- A triple-slash reference occurring in an open file's content: the path
text as written, the absolute path it resolves to (path resolution is an
external collaborator, so the resolved path is carried as data), and the
1-based position of the path text inside the content. -/
structure Reference where
  text : String
  resolved : String
  line : Nat
  offset : Nat
deriving DecidableEq, Repr

/-- Modelled from the spec: a ScriptInfo holds the display path a file was
opened under, its normalized (lower-cased, root-resolved) path key, and
the references found in its in-memory content. -/
structure ScriptInfo where
  fileName : String
  path : String
  refs : List Reference
deriving DecidableEq, Repr

/-- One diagnostics category of the Geterr flow. -/
inductive Category where
  | syntaxCat
  | semanticCat
  | suggestionCat
deriving DecidableEq, Repr

/-- Modelled from the spec: a pending diagnostics request is an ordered
sequence of (file, category) work items plus the originating request's
sequence number; after the items are exhausted a completion event fires. -/
structure PendingRequest where
  seq : Nat
  items : List (String × Category)
deriving DecidableEq, Repr

/-- Modelled from the spec: the whole in-memory server state — the host
filesystem snapshot (path, content pairs), the live project set, the
ScriptInfo registry, the list of currently open files, the pending
Geterr request (at most one), a fresh-id counter for project identity, and
the inferred-project grouping flag. -/
structure ServerState where
  host : List (String × String)
  projects : List Project
  scriptInfos : List ScriptInfo
  openFileNames : List String
  pending : Option PendingRequest
  nextId : Nat
  useInferredProjectPerProjectRoot : Bool
deriving DecidableEq, Repr

/-- A server with empty filesystem and no projects or open files. -/
def emptyState : ServerState :=
  { host := [], projects := [], scriptInfos := [], openFileNames := [],
    pending := none, nextId := 1, useInferredProjectPerProjectRoot := false }

/-- Events emitted out-of-band by the session as scheduler work executes. -/
inductive Event where
  | syntaxDiag (file : String) (diagnostics : List Diagnostic)
  | semanticDiag (file : String) (diagnostics : List Diagnostic)
  | suggestionDiag (file : String) (diagnostics : List Diagnostic)
  | requestCompleted (request_seq : Nat)
deriving DecidableEq, Repr

/-- Does a path exist in the host filesystem snapshot. -/
def hostHas (host : List (String × String)) (path : String) : Bool :=
  host.any (fun e => e.1 == path)

/-- Read a file's content from the host filesystem snapshot. -/
def hostRead (host : List (String × String)) (path : String) : Option String :=
  (host.find? (fun e => e.1 == path)).map (fun e => e.2)

/-- Lower-case one ASCII character. -/
def toLowerChar (c : Char) : Char :=
  if 65 ≤ c.toNat ∧ c.toNat ≤ 90 then Char.ofNat (c.toNat + 32) else c

/-- Lower-case a string (ASCII case folding, as path canonicalization does). -/
def lowerStr (s : String) : String :=
  String.mk (s.toList.map toLowerChar)

/-- Split a character list on a separator character. -/
def splitOnChar (sep : Char) : List Char → List (List Char)
  | [] => [[]]
  | c :: cs =>
    if c == sep then [] :: splitOnChar sep cs
    else
      match splitOnChar sep cs with
      | [] => [[c]]
      | g :: gs => (c :: g) :: gs

/-- The slash-separated components of a path. -/
def pathComponents (p : String) : List String :=
  (splitOnChar '/' p.toList).map String.mk

/-- Join path components with slashes. -/
def joinComponents : List String → String
  | [] => ""
  | [c] => c
  | c :: cs => c ++ "/" ++ joinComponents cs

/-- Drop the first character of a string (the corruption the scenarios use). -/
def dropFirstChar (s : String) : String :=
  String.mk (s.toList.drop 1)

/-- Is a path rooted (absolute). -/
def isRooted (p : String) : Bool :=
  match p.toList with
  | '/' :: _ => true
  | _ => false

/-- Resolve a possibly non-rooted file name against the declared project
root (or the filesystem root when none was supplied). -/
def resolvedFileName (projectRootPath : Option String) (fileName : String) : String :=
  if isRooted fileName then fileName
  else (projectRootPath.getD "") ++ "/" ++ fileName

/-- Modelled from the spec: the case-insensitive-safe normalization key of
a path — resolve against the declared root, then lower-case. -/
def normalizedPathKey (projectRootPath : Option String) (fileName : String) : String :=
  lowerStr (resolvedFileName projectRootPath fileName)

/-- Drop the last path component: the directory of a path. -/
def getDirectoryPath (p : String) : String :=
  joinComponents ((pathComponents p).dropLast)

/-- Join a directory and a file name. -/
def combinePaths (dir file : String) : String :=
  dir ++ "/" ++ file

/-- All proper ancestor directories of a path, nearest first; the empty
string stands for the filesystem root directory. -/
def ancestorDirs (fileName : String) : List String :=
  (List.range ((pathComponents fileName).dropLast).length).reverse.map
    (fun n => joinComponents (((pathComponents fileName).dropLast).take (n + 1)))

/-- Walk ancestor directories of an (already resolved) file name looking
for a tsconfig.json present on the host. -/
def findConfigFile (host : List (String × String)) (fileName : String) : Option String :=
  ((ancestorDirs fileName).map (fun d => combinePaths d "tsconfig.json")).find?
    (hostHas host)

/-- Remove every double-quote character from a string. -/
def stripQuotes (s : String) : String :=
  String.mk (s.toList.filter (fun c => c ≠ '"'))

/-- Extract the files array of a config text: the comma-separated,
quote-stripped entries between the first square brackets. -/
def extractFiles (content : String) : List String :=
  match splitOnChar '[' content.toList with
  | _ :: afterOpen :: _ =>
    match splitOnChar ']' afterOpen with
    | inner :: _ =>
      if inner.isEmpty then []
      else ((splitOnChar ',' inner).map String.mk).map stripQuotes
    | [] => []
  | _ => []

/-- Modelled from the spec: the external config parser boundary (the spec
keeps the real parser out of scope). It validates that the text opens with
a brace — otherwise the parse fails with the brace-expected diagnostic the
spec names — and extracts the declared files list. -/
def parseConfig (content : String) : Except DiagnosticMessage (List String) :=
  match content.toList with
  | '\x7b' :: _ => Except.ok (extractFiles content)
  | _ => Except.error DiagnosticMessage.lbraceExpected

/-- Modelled from the spec: missing declared root files are recorded as
project errors, one per missing file, in declaration order, with message
File-not-found; they are not file-tagged (they are project-global). -/
def missingRootErrors (host : List (String × String)) (rootFileNames : List String) :
    List Diagnostic :=
  (rootFileNames.filter (fun f => !(hostHas host f))).map
    (fun f => { messageText := DiagnosticMessage.File_0_not_found f })

/-- Root files declared by a config, resolved against the config's directory. -/
def configRootFiles (configPath : String) (files : List String) : List String :=
  files.map (combinePaths (getDirectoryPath configPath))

/-- Modelled from the spec: create a Configured project from the config at
`configPath`. A parse failure does not block creation: the project exists
with the parse error (tagged with the config path) as its only error; a
successful parse installs the declared roots and records one missing-file
error per absent root. -/
def loadConfiguredProject (host : List (String × String)) (configPath : String)
    (id : Nat) : Project :=
  match hostRead host configPath with
  | some content =>
    match parseConfig content with
    | Except.ok files =>
      { kind := ProjectKind.configuredKind, projectName := configPath, id := id,
        rootFileNames := configRootFiles configPath files, options := {},
        projectErrors := missingRootErrors host (configRootFiles configPath files) }
    | Except.error msg =>
      { kind := ProjectKind.configuredKind, projectName := configPath, id := id,
        rootFileNames := [], options := {},
        projectErrors := [{ messageText := msg, file := some configPath }] }
  | none =>
    { kind := ProjectKind.configuredKind, projectName := configPath, id := id,
      rootFileNames := [], options := {}, projectErrors := [] }

/-- Modelled from the spec: watch-triggered re-synchronization of one
project. For a Configured project the config is re-read and re-parsed: on
failure the previous root-file set and options are kept and the error list
is replaced with exactly the parse error (tagged with the config path); on
success roots are replaced and missing-root errors recomputed. Other
variants recompute their missing-root errors against the new filesystem.
The project object is never destroyed (its `id` is preserved). -/
def reloadProject (host : List (String × String)) (p : Project) : Project :=
  match p.kind with
  | ProjectKind.configuredKind =>
    match hostRead host p.projectName with
    | some content =>
      match parseConfig content with
      | Except.ok files =>
        { p with rootFileNames := configRootFiles p.projectName files,
                 projectErrors :=
                   missingRootErrors host (configRootFiles p.projectName files) }
      | Except.error msg =>
        { p with projectErrors := [{ messageText := msg, file := some p.projectName }] }
    | none => p
  | _ => { p with projectErrors := missingRootErrors host p.rootFileNames }

/-- Modelled from the spec: replace the host filesystem snapshot and
re-synchronize every live project against it (the watch coordinator fires
for each project affected by the change). -/
def reloadFS (st : ServerState) (newHost : List (String × String)) : ServerState :=
  { st with host := newHost, projects := st.projects.map (reloadProject newHost) }

/-- Look a project up by its project name. -/
def findProject (st : ServerState) (projectFileName : String) : Option Project :=
  st.projects.find? (fun p => p.projectName == projectFileName)

/-- Modelled from the spec: create or replace the External project with
the given name; root files not found on disk are recorded as project
errors but do not block creation. Replacing keeps the project identity. -/
def openExternalProject (st : ServerState) (projectFileName : String)
    (rootFiles : List String) (options : CompilerOptions) : ServerState :=
  match findProject st projectFileName with
  | some old =>
    { st with projects := st.projects.map (fun q =>
        if q.projectName == projectFileName then
          { kind := ProjectKind.externalKind, projectName := projectFileName,
            id := old.id, rootFileNames := rootFiles, options := options,
            projectErrors := missingRootErrors st.host rootFiles }
        else q) }
  | none =>
    { st with
      projects := st.projects ++
        [{ kind := ProjectKind.externalKind, projectName := projectFileName,
           id := st.nextId, rootFileNames := rootFiles, options := options,
           projectErrors := missingRootErrors st.host rootFiles }],
      nextId := st.nextId + 1 }

/-- Modelled from the spec: the grouping key of the Inferred project that
hosts a root-less open file — the declared project root when grouping by
project root is enabled and a root was supplied, else the shared key. -/
def inferredProjectKey (useInferredProjectPerProjectRoot : Bool)
    (projectRootPath : Option String) : String :=
  if useInferredProjectPerProjectRoot then projectRootPath.getD "" else ""

/-- Modelled from the spec: open a client file. A ScriptInfo is created
(keyed by the normalized path, resolved against the declared project root
when the name is not rooted), the file is marked open, and a home project
is found: Configured-project discovery walks ancestor directories for a
config file; otherwise an Inferred project is created or reused, grouped
by declared project root when that mode is enabled. -/
def openClientFile (st : ServerState) (fileName : String) (refs : List Reference)
    (projectRootPath : Option String) : ServerState :=
  match findConfigFile st.host (resolvedFileName projectRootPath fileName) with
  | some configPath =>
    if st.projects.any (fun p => p.projectName == configPath) then
      { st with
        scriptInfos := st.scriptInfos ++
          [{ fileName := fileName, path := normalizedPathKey projectRootPath fileName,
             refs := refs }],
        openFileNames := st.openFileNames ++ [fileName] }
    else
      { st with
        scriptInfos := st.scriptInfos ++
          [{ fileName := fileName, path := normalizedPathKey projectRootPath fileName,
             refs := refs }],
        openFileNames := st.openFileNames ++ [fileName],
        projects := st.projects ++ [loadConfiguredProject st.host configPath st.nextId],
        nextId := st.nextId + 1 }
  | none =>
    if st.projects.any (fun p =>
        p.kind == ProjectKind.inferredKind &&
        p.projectName == inferredProjectKey st.useInferredProjectPerProjectRoot
          projectRootPath) then
      { st with
        scriptInfos := st.scriptInfos ++
          [{ fileName := fileName, path := normalizedPathKey projectRootPath fileName,
             refs := refs }],
        openFileNames := st.openFileNames ++ [fileName] }
    else
      { st with
        scriptInfos := st.scriptInfos ++
          [{ fileName := fileName, path := normalizedPathKey projectRootPath fileName,
             refs := refs }],
        openFileNames := st.openFileNames ++ [fileName],
        projects := st.projects ++
          [{ kind := ProjectKind.inferredKind,
             projectName := inferredProjectKey st.useInferredProjectPerProjectRoot
               projectRootPath,
             id := st.nextId, rootFileNames := [fileName], options := {},
             projectErrors := [] }],
        nextId := st.nextId + 1 }

/-- Modelled from the spec: close a client file — drop it from the open
set and the ScriptInfo registry (its content is no longer held). -/
def closeClientFile (st : ServerState) (fileName : String) : ServerState :=
  { st with
    openFileNames := st.openFileNames.filter (fun f => f != fileName),
    scriptInfos := st.scriptInfos.filter (fun i => i.fileName != fileName) }

/-- Look a ScriptInfo up by its normalized path key. -/
def getScriptInfoForPath (st : ServerState) (path : String) : Option ScriptInfo :=
  st.scriptInfos.find? (fun i => i.path == path)

/-- Look a ScriptInfo up by the display name it was opened under. -/
def findScriptInfoByName (st : ServerState) (fileName : String) : Option ScriptInfo :=
  st.scriptInfos.find? (fun i => i.fileName == fileName)

/-- All project-level errors of a project (missing root files and config
parse errors alike). -/
def getAllProjectErrors (p : Project) : List Diagnostic :=
  p.projectErrors

/-- Modelled from the spec: the project errors carried in a synchronized
project entry are the global (not file-tagged) ones only. -/
def getGlobalProjectErrors (p : Project) : List Diagnostic :=
  p.projectErrors.filter (fun d => d.file.isNone)

/-- One entry of the synchronizeProjectList answer. -/
structure ProjectFilesWithTSDiagnostics where
  projectName : String
  projectErrors : List Diagnostic
deriving DecidableEq, Repr

/-- Modelled from the spec: reconcile against a caller snapshot and return
the current project list; each entry carries the project's name and its
global project errors. -/
def synchronizeProjectList (st : ServerState) : List ProjectFilesWithTSDiagnostics :=
  st.projects.map (fun p =>
    { projectName := p.projectName, projectErrors := getGlobalProjectErrors p })

/-- Modelled from the spec: the opaque checking engine's compiler-options
diagnostics for an options set; no scenario in the spec makes the engine
produce any, so the boundary yields the empty list. -/
def engineCompilerOptionsDiagnostics (_options : CompilerOptions) : List Diagnostic :=
  []

/-- A diagnostic in the line-positioned wire shape. -/
structure DiagnosticWithLinePosition where
  message : DiagnosticMessage
  startLocation : Option Location
  endLocation : Option Location
deriving DecidableEq, Repr

/-- Modelled from the spec: the CompilerOptionsDiagnosticsFull query for a
named project — its project errors followed by the engine's options-level
diagnostics, rendered with line positions; an empty list (not a failure)
when there is nothing to report, an error only when no project has the
requested name. -/
def compilerOptionsDiagnosticsFull (st : ServerState) (projectFileName : String) :
    Except String (List DiagnosticWithLinePosition) :=
  match findProject st projectFileName with
  | some p =>
    Except.ok ((p.projectErrors ++ engineCompilerOptionsDiagnostics p.options).map
      (fun d => { message := d.messageText, startLocation := d.start,
                  endLocation := d.stop }))
  | none => Except.error "No Project."

/-- Modelled from the spec: set the compiler options of every Inferred
project. -/
def setCompilerOptionsForInferredProjects (st : ServerState)
    (options : CompilerOptions) : ServerState :=
  { st with projects := st.projects.map (fun p =>
      if p.kind == ProjectKind.inferredKind then { p with options := options } else p) }

/-- Drop a leading dot-slash from a reference path, as the resolver's
display rendering does. -/
def stripDotSlash (s : String) : String :=
  match s.toList with
  | '.' :: '/' :: rest => String.mk rest
  | _ => s

/-- The semantic diagnostic reported for one unresolved reference: a
File-not-found message naming the (display-rendered) reference path and
spanning the path text inside the referencing file. -/
def unresolvedRefDiagnostic (r : Reference) : Diagnostic :=
  { messageText := DiagnosticMessage.File_0_not_found (stripDotSlash r.text),
    file := none,
    start := some { line := r.line, offset := r.offset },
    stop := some { line := r.line, offset := r.offset + r.text.length } }

/-- Modelled from the spec: the opaque engine's syntax diagnostics; the
spec's scenarios (references to missing paths included) produce none. -/
def getSyntaxDiagnostics (_st : ServerState) (_fileName : String) : List Diagnostic :=
  []

/-- Modelled from the spec: the opaque engine's semantic diagnostics — one
unresolved-reference diagnostic per reference whose resolved path is
absent from the host filesystem, in reference order. -/
def getSemanticDiagnostics (st : ServerState) (fileName : String) : List Diagnostic :=
  match findScriptInfoByName st fileName with
  | some info =>
    (info.refs.filter (fun r => !(hostHas st.host r.resolved))).map
      unresolvedRefDiagnostic
  | none => []

/-- Modelled from the spec: the opaque engine's suggestion diagnostics;
the spec's scenarios produce none. -/
def getSuggestionDiagnostics (_st : ServerState) (_fileName : String) :
    List Diagnostic :=
  []

/-- The ordered work-item list of a Geterr request: for each file in
request order, its syntax, semantic and suggestion steps. -/
def checkList (files : List String) : List (String × Category) :=
  files.flatMap (fun f =>
    [(f, Category.syntaxCat), (f, Category.semanticCat), (f, Category.suggestionCat)])

/-- Modelled from the spec: record a Geterr request — its work items are
the check list over the request's files that are open in the service, and
any previously pending request of the same kind is superseded entirely
(its remaining work items are discarded silently). -/
def geterr (st : ServerState) (requestSeq : Nat) (files : List String) : ServerState :=
  { st with pending := some (PendingRequest.mk requestSeq
      (checkList (files.filter (fun f => st.openFileNames.contains f)))) }

/-- The event a work item emits when it executes. -/
def checkItemEvent (st : ServerState) (item : String × Category) : Event :=
  match item.2 with
  | Category.syntaxCat => Event.syntaxDiag item.1 (getSyntaxDiagnostics st item.1)
  | Category.semanticCat => Event.semanticDiag item.1 (getSemanticDiagnostics st item.1)
  | Category.suggestionCat =>
      Event.suggestionDiag item.1 (getSuggestionDiagnostics st item.1)

/-- Modelled from the spec: one cooperative scheduling step (the debounce
timer firing, or one immediate callback). It executes the next work item
of the pending request and emits that item's event; when the items are
exhausted it emits the single completion event carrying the originating
request's sequence number and clears the pending request. -/
def step (st : ServerState) : ServerState × List Event :=
  match st.pending with
  | none => (st, [])
  | some req =>
    match req.items with
    | [] => ({ st with pending := none }, [Event.requestCompleted req.seq])
    | item :: rest =>
      ({ st with pending := some { seq := req.seq, items := rest } },
       [checkItemEvent st item])

/-- Run `n` scheduling steps, collecting the emitted events in order. -/
def runSteps (st : ServerState) : Nat → ServerState × List Event
  | 0 => (st, [])
  | n + 1 =>
    ((runSteps (step st).1 n).1, (step st).2 ++ (runSteps (step st).1 n).2)

/-- The number of steps after which the pending request has fully run:
one per remaining work item plus one for the completion event. -/
def stepsToDrain (st : ServerState) : Nat :=
  match st.pending with
  | none => 0
  | some req => req.items.length + 1

/-- Log record severities of the server logger. -/
inductive Msg where
  | Err
  | Info
  | Perf
deriving DecidableEq, Repr

/-- One log record: its text and its severity. -/
structure LogEntry where
  text : String
  type : Msg
deriving DecidableEq, Repr

/-- The client-visible command surface exercised by the scenarios, plus
the host's scheduling and filesystem-change callbacks. -/
inductive Command where
  | openFileCmd (fileName : String) (refs : List Reference)
      (projectRootPath : Option String)
  | closeFileCmd (fileName : String)
  | geterrCmd (requestSeq : Nat) (files : List String)
  | stepCmd
  | reloadFSCmd (newHost : List (String × String))
deriving DecidableEq, Repr

/-- Modelled from the spec: the session executes one command — structural
commands mutate the project graph synchronously, the Geterr command only
enqueues scheduler work, a scheduling step emits its events. Normal
degraded conditions (missing files, corrupted configs, unresolved
references) surface as diagnostics and events only; the session logs
informational records and never a severity-Err record for them. -/
def executeCommand (st : ServerState) : Command → ServerState × List Event × List LogEntry
  | Command.openFileCmd fileName refs projectRootPath =>
    (openClientFile st fileName refs projectRootPath, [],
     [{ text := "request: open", type := Msg.Info }])
  | Command.closeFileCmd fileName =>
    (closeClientFile st fileName, [], [{ text := "request: close", type := Msg.Info }])
  | Command.geterrCmd requestSeq files =>
    (geterr st requestSeq files, [], [{ text := "request: geterr", type := Msg.Info }])
  | Command.stepCmd =>
    ((step st).1, (step st).2, [{ text := "checking one item", type := Msg.Perf }])
  | Command.reloadFSCmd newHost =>
    (reloadFS st newHost, [], [{ text := "fs change", type := Msg.Info }])

/-- Run a command sequence, collecting all events and log records. -/
def runCommands (st : ServerState) :
    List Command → ServerState × List Event × List LogEntry
  | [] => (st, [], [])
  | c :: cs =>
    ((runCommands (executeCommand st c).1 cs).1,
     (executeCommand st c).2.1 ++ (runCommands (executeCommand st c).1 cs).2.1,
     (executeCommand st c).2.2 ++ (runCommands (executeCommand st c).1 cs).2.2)

/-! ## Helper lemmas -/

/-- The event a work item emits does not depend on the pending request. -/
theorem checkItemEvent_pending (st : ServerState) (p : Option PendingRequest) :
    checkItemEvent { st with pending := p } = checkItemEvent st := by
  funext item
  obtain ⟨f, c⟩ := item
  cases c <;> rfl

/-- A work-item event is never a completion event. -/
theorem checkItemEvent_ne_completed (st : ServerState) (item : String × Category)
    (s : Nat) : checkItemEvent st item ≠ Event.requestCompleted s := by
  obtain ⟨f, c⟩ := item
  cases c <;> simp [checkItemEvent]

/-- Draining a pending request emits each remaining work item's event in
order, then the single completion event with the request's sequence
number. -/
theorem runSteps_drain (st : ServerState) (s : Nat) (items : List (String × Category)) :
    runSteps { st with pending := some ⟨s, items⟩ } (items.length + 1) =
      ({ st with pending := none },
       items.map (checkItemEvent st) ++ [Event.requestCompleted s]) := by
  induction items with
  | nil => simp [runSteps, step]
  | cons item rest ih =>
    have hstep :
        step { st with pending := some ⟨s, item :: rest⟩ } =
          ({ st with pending := some ⟨s, rest⟩ }, [checkItemEvent st item]) := by
      show ({ st with pending := some ⟨s, rest⟩ },
          [checkItemEvent { st with pending := some ⟨s, item :: rest⟩ } item]) = _
      rw [checkItemEvent_pending]
    have hunfold :
        runSteps { st with pending := some ⟨s, item :: rest⟩ }
            ((item :: rest).length + 1) =
          ((runSteps (step { st with pending := some ⟨s, item :: rest⟩ }).1
              (rest.length + 1)).1,
           (step { st with pending := some ⟨s, item :: rest⟩ }).2 ++
             (runSteps (step { st with pending := some ⟨s, item :: rest⟩ }).1
               (rest.length + 1)).2) := rfl
    rw [hunfold, hstep]
    simp [ih]

/-- Draining a freshly recorded Geterr request yields the per-item events
over the open files of the request, in order, then the completion event. -/
theorem drainPending_geterr (st : ServerState) (requestSeq : Nat)
    (files : List String) :
    runSteps (geterr st requestSeq files) (stepsToDrain (geterr st requestSeq files)) =
      ({ st with pending := none },
       (checkList (files.filter (fun f => st.openFileNames.contains f))).map
           (checkItemEvent st) ++
         [Event.requestCompleted requestSeq]) := by
  exact runSteps_drain st requestSeq
    (checkList (files.filter (fun f => st.openFileNames.contains f)))

/-- One scheduling step only changes the pending request. -/
theorem step_state (st : ServerState) : ∃ p, (step st).1 = { st with pending := p } := by
  unfold step
  split
  · exact ⟨st.pending, rfl⟩
  · split
    · exact ⟨none, rfl⟩
    · exact ⟨some _, rfl⟩

/-- Any number of scheduling steps only changes the pending request. -/
theorem runSteps_state (st : ServerState) (n : Nat) :
    ∃ p, (runSteps st n).1 = { st with pending := p } := by
  induction n generalizing st with
  | zero => exact ⟨st.pending, rfl⟩
  | succ n ih =>
    obtain ⟨p, hp⟩ := step_state st
    obtain ⟨q, hq⟩ := ih (step st).1
    refine ⟨q, ?_⟩
    show (runSteps (step st).1 n).1 = _
    rw [hq, hp]

/-! ## C1 — Geterr event ordering -/

/-- C1: for a Geterr request over an ordered list [A, B] of open files,
after the debounce timer fires and every queued step runs, the emitted
event sequence is exactly syntax, semantic and suggestion diagnostics for
A, then for B, then the single completion event carrying the originating
request's sequence number. -/
theorem geterr_ordering (st : ServerState) (requestSeq : Nat) (A B : String)
    (hA : st.openFileNames.contains A = true)
    (hB : st.openFileNames.contains B = true) :
    (runSteps (geterr st requestSeq [A, B])
        (stepsToDrain (geterr st requestSeq [A, B]))).2 =
      [Event.syntaxDiag A (getSyntaxDiagnostics st A),
       Event.semanticDiag A (getSemanticDiagnostics st A),
       Event.suggestionDiag A (getSuggestionDiagnostics st A),
       Event.syntaxDiag B (getSyntaxDiagnostics st B),
       Event.semanticDiag B (getSemanticDiagnostics st B),
       Event.suggestionDiag B (getSuggestionDiagnostics st B),
       Event.requestCompleted requestSeq] := by
  have hA' : A ∈ st.openFileNames := by simpa using hA
  have hB' : B ∈ st.openFileNames := by simpa using hB
  rw [drainPending_geterr]
  simp [List.filter_cons, hA', hB', checkList, checkItemEvent]

/-- A server with two files on disk, both opened. -/
def twoFileState : ServerState :=
  openClientFile
    (openClientFile { emptyState with host := [("/a/b/app.ts", ""), ("/a/b/applib.ts", "")] }
      "/a/b/app.ts" [] none)
    "/a/b/applib.ts" [] none

theorem geterr_ordering_witness :
    twoFileState.openFileNames.contains "/a/b/app.ts" = true ∧
    twoFileState.openFileNames.contains "/a/b/applib.ts" = true ∧
    (runSteps (geterr twoFileState 42 ["/a/b/app.ts", "/a/b/applib.ts"])
        (stepsToDrain (geterr twoFileState 42 ["/a/b/app.ts", "/a/b/applib.ts"]))).2 =
      [Event.syntaxDiag "/a/b/app.ts" (getSyntaxDiagnostics twoFileState "/a/b/app.ts"),
       Event.semanticDiag "/a/b/app.ts" (getSemanticDiagnostics twoFileState "/a/b/app.ts"),
       Event.suggestionDiag "/a/b/app.ts"
         (getSuggestionDiagnostics twoFileState "/a/b/app.ts"),
       Event.syntaxDiag "/a/b/applib.ts" (getSyntaxDiagnostics twoFileState "/a/b/applib.ts"),
       Event.semanticDiag "/a/b/applib.ts"
         (getSemanticDiagnostics twoFileState "/a/b/applib.ts"),
       Event.suggestionDiag "/a/b/applib.ts"
         (getSuggestionDiagnostics twoFileState "/a/b/applib.ts"),
       Event.requestCompleted 42] :=
  ⟨by decide, by decide,
   geterr_ordering twoFileState 42 "/a/b/app.ts" "/a/b/applib.ts" (by decide) (by decide)⟩

/-! ## C2 — Geterr supersession -/

/-- A server with one file on disk, opened. -/
def oneFileState : ServerState :=
  openClientFile { emptyState with host := [("/a/app.ts", "")] } "/a/app.ts" [] none

/-- C2 counterexample: an execution in which a second Geterr request (seq
2) is issued before the first request's (seq 1) completion event has been
emitted — the completion for seq 1 is never emitted at all — and yet an
event of the first request (its first file's syntax diagnostics, emitted
by the step that ran before the supersession) was emitted. This refutes
the claim that no event of any kind is ever emitted for the first
request. -/
theorem geterr_supersession_counterexample :
    (step (geterr oneFileState 1 ["/a/app.ts"])).2 =
      [Event.syntaxDiag "/a/app.ts" []] ∧
    Event.requestCompleted 1 ∉
      (step (geterr oneFileState 1 ["/a/app.ts"])).2 ++
        (runSteps (geterr (step (geterr oneFileState 1 ["/a/app.ts"])).1 2 ["/a/app.ts"])
          (stepsToDrain
            (geterr (step (geterr oneFileState 1 ["/a/app.ts"])).1 2
              ["/a/app.ts"]))).2 := by
  decide

/-- C2 (amended): when a second Geterr request supersedes a first one at
any point before the first's completion event (here: after `k` scheduling
steps of the first), no further events for the first request are emitted —
in particular its completion event never fires — and the second request
emits its full ordered sequence ending in its own completion event. -/
theorem geterr_supersession (st : ServerState) (k seq1 seq2 : Nat)
    (files1 files2 : List String) (hseq : seq1 ≠ seq2) :
    (runSteps (geterr (runSteps (geterr st seq1 files1) k).1 seq2 files2)
        (stepsToDrain (geterr (runSteps (geterr st seq1 files1) k).1 seq2 files2))).2 =
      (checkList (files2.filter (fun f => st.openFileNames.contains f))).map
          (checkItemEvent st) ++ [Event.requestCompleted seq2] ∧
    Event.requestCompleted seq1 ∉
      (runSteps (geterr (runSteps (geterr st seq1 files1) k).1 seq2 files2)
        (stepsToDrain
          (geterr (runSteps (geterr st seq1 files1) k).1 seq2 files2))).2 := by
  obtain ⟨p, hp⟩ := runSteps_state (geterr st seq1 files1) k
  have hp' : (runSteps (geterr st seq1 files1) k).1 = { st with pending := p } := hp
  constructor
  · rw [hp', drainPending_geterr]
    show (checkList (files2.filter (fun f => st.openFileNames.contains f))).map
        (checkItemEvent { st with pending := p }) ++ [Event.requestCompleted seq2] = _
    rw [checkItemEvent_pending]
  · rw [hp', drainPending_geterr]
    show Event.requestCompleted seq1 ∉
      (checkList (files2.filter (fun f => st.openFileNames.contains f))).map
        (checkItemEvent { st with pending := p }) ++ [Event.requestCompleted seq2]
    rw [checkItemEvent_pending]
    intro hmem
    rcases List.mem_append.mp hmem with h | h
    · obtain ⟨item, _, hitem⟩ := List.mem_map.mp h
      exact checkItemEvent_ne_completed st item seq1 hitem
    · simp at h
      exact hseq h

theorem geterr_supersession_witness :
    (1 : Nat) ≠ 2 ∧
    ((runSteps (geterr (runSteps (geterr oneFileState 1 ["/a/app.ts"]) 1).1 2 ["/a/app.ts"])
        (stepsToDrain
          (geterr (runSteps (geterr oneFileState 1 ["/a/app.ts"]) 1).1 2
            ["/a/app.ts"]))).2 =
      (checkList (["/a/app.ts"].filter
          (fun f => oneFileState.openFileNames.contains f))).map
          (checkItemEvent oneFileState) ++ [Event.requestCompleted 2] ∧
     Event.requestCompleted 1 ∉
      (runSteps (geterr (runSteps (geterr oneFileState 1 ["/a/app.ts"]) 1).1 2 ["/a/app.ts"])
        (stepsToDrain
          (geterr (runSteps (geterr oneFileState 1 ["/a/app.ts"]) 1).1 2
            ["/a/app.ts"]))).2) :=
  ⟨by decide, geterr_supersession oneFileState 1 1 2 ["/a/app.ts"] ["/a/app.ts"] (by decide)⟩

/-! ## C5 — Geterr over a file with unresolved references -/

/-- C5: a Geterr request over an open file whose content references paths
absent from disk still runs all three categories and terminates with the
completion event: empty syntax diagnostics, one File-not-found semantic
diagnostic per unresolved reference (spanning the reference path text, as
`unresolvedRefDiagnostic` records), empty suggestion diagnostics. The
drain function is total, so no crash or unhandled failure occurs. -/
theorem geterr_nonexistent_refs (st : ServerState) (requestSeq : Nat) (u : String)
    (info : ScriptInfo)
    (hopen : st.openFileNames.contains u = true)
    (hinfo : findScriptInfoByName st u = some info)
    (hunres : ∀ r ∈ info.refs, hostHas st.host r.resolved = false) :
    (runSteps (geterr st requestSeq [u]) (stepsToDrain (geterr st requestSeq [u]))).2 =
      [Event.syntaxDiag u [],
       Event.semanticDiag u (info.refs.map unresolvedRefDiagnostic),
       Event.suggestionDiag u [],
       Event.requestCompleted requestSeq] := by
  have hopen' : u ∈ st.openFileNames := by simpa using hopen
  rw [drainPending_geterr]
  have hfil : [u].filter (fun f => st.openFileNames.contains f) = [u] := by
    simp [hopen']
  rw [hfil]
  have hfil2 : info.refs.filter (fun r => !(hostHas st.host r.resolved)) = info.refs :=
    List.filter_eq_self.mpr (fun r hr => by simp [hunres r hr])
  have hsem : getSemanticDiagnostics st u = info.refs.map unresolvedRefDiagnostic := by
    simp [getSemanticDiagnostics, hinfo, hfil2]
  simp [checkList, checkItemEvent, getSyntaxDiagnostics, getSuggestionDiagnostics, hsem]

/-- The first unresolved reference of the non-existent-file scenario. -/
def refCore : Reference :=
  { text := "../../../../../../typings/@epic/Core.d.ts",
    resolved := "/typings/@epic/Core.d.ts", line := 1, offset := 22 }

/-- The second unresolved reference of the non-existent-file scenario. -/
def refSomefile : Reference :=
  { text := "./src/somefile.d.ts",
    resolved := "/user/someuser/projects/someFolder/src/somefile.d.ts",
    line := 2, offset := 22 }

/-- An untitled (not on disk) open file whose content references two
non-existent paths, opened under a declared project root. -/
def untitledState : ServerState :=
  openClientFile
    { emptyState with useInferredProjectPerProjectRoot := true,
                      host := [("/src/somefile.d.ts", "class c")] }
    "untitled:Untitled-1" [refCore, refSomefile]
    (some "/user/someuser/projects/someFolder")

theorem geterr_nonexistent_refs_witness :
    untitledState.openFileNames.contains "untitled:Untitled-1" = true ∧
    findScriptInfoByName untitledState "untitled:Untitled-1" =
      some { fileName := "untitled:Untitled-1",
             path := "/user/someuser/projects/somefolder/untitled:untitled-1",
             refs := [refCore, refSomefile] } ∧
    (∀ r ∈ [refCore, refSomefile], hostHas untitledState.host r.resolved = false) ∧
    (runSteps (geterr untitledState 3 ["untitled:Untitled-1"])
        (stepsToDrain (geterr untitledState 3 ["untitled:Untitled-1"]))).2 =
      [Event.syntaxDiag "untitled:Untitled-1" [],
       Event.semanticDiag "untitled:Untitled-1"
         ([refCore, refSomefile].map unresolvedRefDiagnostic),
       Event.suggestionDiag "untitled:Untitled-1" [],
       Event.requestCompleted 3] :=
  ⟨by decide, by decide, by decide,
   geterr_nonexistent_refs untitledState 3 "untitled:Untitled-1"
     { fileName := "untitled:Untitled-1",
       path := "/user/someuser/projects/somefolder/untitled:untitled-1",
       refs := [refCore, refSomefile] }
     (by decide) (by decide) (by decide)⟩

/-! ## C7 — Geterr with empty or unopened file list -/

/-- C7: a Geterr request whose files are not open in the service at
request time — the empty file list included — emits only the completion
event carrying the request's sequence number, with zero category
events. -/
theorem geterr_unopened_only_completion (st : ServerState) (requestSeq : Nat)
    (files : List String)
    (h : ∀ f ∈ files, st.openFileNames.contains f = false) :
    (runSteps (geterr st requestSeq files)
        (stepsToDrain (geterr st requestSeq files))).2 =
      [Event.requestCompleted requestSeq] := by
  rw [drainPending_geterr]
  have hfil : files.filter (fun f => st.openFileNames.contains f) = [] := by
    refine List.filter_eq_nil_iff.mpr (fun f hf => ?_)
    simpa using h f hf
  rw [hfil]
  rfl

/-- A server with one file on disk that was never opened. -/
def unopenedState : ServerState :=
  { emptyState with host := [("/a/b/project/file.ts", "let x")] }

theorem geterr_unopened_only_completion_witness :
    ((∀ f ∈ ["/a/b/project/file.ts"], unopenedState.openFileNames.contains f = false) ∧
      (runSteps (geterr unopenedState 1 ["/a/b/project/file.ts"])
          (stepsToDrain (geterr unopenedState 1 ["/a/b/project/file.ts"]))).2 =
        [Event.requestCompleted 1]) ∧
    ((∀ f ∈ ([] : List String), unopenedState.openFileNames.contains f = false) ∧
      (runSteps (geterr unopenedState 2 [])
          (stepsToDrain (geterr unopenedState 2 []))).2 =
        [Event.requestCompleted 2]) :=
  ⟨⟨by decide,
    geterr_unopened_only_completion unopenedState 1 ["/a/b/project/file.ts"] (by decide)⟩,
   ⟨by decide, geterr_unopened_only_completion unopenedState 2 [] (by decide)⟩⟩

/-! ## C6 — no severity-Err log records -/

/-- C6: over every command sequence (open/close/Geterr/scheduling steps /
filesystem changes — which is where missing files, corrupted configs and
unresolved references surface), the session never produces a log record
of severity Err; such conditions surface only as diagnostics and
events. -/
theorem no_error_severity_logs (st : ServerState) (cmds : List Command) :
    ((runCommands st cmds).2.2.all (fun l => l.type != Msg.Err)) = true := by
  induction cmds generalizing st with
  | nil => rfl
  | cons c cs ih =>
    show ((executeCommand st c).2.2 ++
      (runCommands (executeCommand st c).1 cs).2.2).all (fun l => l.type != Msg.Err) = true
    rw [List.all_append, ih]
    cases c <;> rfl

/-! ## C3 — corrupted-config round trip -/

/-- Re-synchronizing a project never changes its project name. -/
theorem reloadProject_projectName (host : List (String × String)) (p : Project) :
    (reloadProject host p).projectName = p.projectName := by
  unfold reloadProject
  split
  · split
    · split
      · rfl
      · rfl
    · rfl
  · rfl

/-- No missing-root errors when every root file exists on the host. -/
theorem missingRootErrors_nil (host : List (String × String)) (roots : List String)
    (h : ∀ f ∈ roots, hostHas host f = true) :
    missingRootErrors host roots = [] := by
  unfold missingRootErrors
  have hfil : roots.filter (fun f => !(hostHas host f)) = [] := by
    refine List.filter_eq_nil_iff.mpr (fun f hf => ?_)
    simp [h f hf]
  rw [hfil]
  rfl

/-- C3: switching a Configured project's config content from a valid C to
the corrupted variant obtained by dropping its first character and
re-synchronizing replaces the project's error list with exactly one parse
diagnostic (the brace-expected message) tagged with the config path, while
keeping the same project record (same id, kind, name, root files — the
result is a field update of the original `p`, so no destruction or
recreation, and the configured-project count stays 1); switching back and
re-synchronizing removes the diagnostic, leaving an empty error list, on
the same project identity. -/
theorem corrupted_config_roundtrip (st : ServerState) (p : Project)
    (configPath C : String) (cfiles : List String)
    (hostGood hostBad : List (String × String))
    (hprojects : st.projects = [p])
    (hkind : p.kind = ProjectKind.configuredKind)
    (hname : p.projectName = configPath)
    (hgoodRead : hostRead hostGood configPath = some C)
    (hbadRead : hostRead hostBad configPath = some (dropFirstChar C))
    (hCok : parseConfig C = Except.ok cfiles)
    (hCbad : parseConfig (dropFirstChar C) = Except.error DiagnosticMessage.lbraceExpected)
    (hroots : ∀ f ∈ configRootFiles configPath cfiles, hostHas hostGood f = true) :
    (reloadFS st hostBad).projects =
      [{ p with projectErrors := [{ messageText := DiagnosticMessage.lbraceExpected,
                                    file := some configPath }] }] ∧
    (reloadFS (reloadFS st hostBad) hostGood).projects =
      [{ p with rootFileNames := configRootFiles configPath cfiles,
                projectErrors := [] }] ∧
    (reloadFS st hostBad).projects.map Project.id = [p.id] ∧
    (reloadFS (reloadFS st hostBad) hostGood).projects.map Project.id = [p.id] := by
  have hmiss : missingRootErrors hostGood (configRootFiles configPath cfiles) = [] :=
    missingRootErrors_nil hostGood _ hroots
  have hq : reloadProject hostBad p =
      { p with projectErrors := [{ messageText := DiagnosticMessage.lbraceExpected,
                                   file := some configPath }] } := by
    simp only [reloadProject, hkind, hname, hbadRead, hCbad]
  have hr : reloadProject hostGood
      { p with projectErrors := [{ messageText := DiagnosticMessage.lbraceExpected,
                                   file := some configPath }] } =
      { p with rootFileNames := configRootFiles configPath cfiles,
               projectErrors := [] } := by
    simp only [reloadProject, hkind, hname, hgoodRead, hCok, hmiss]
  have h1 : (reloadFS st hostBad).projects =
      [{ p with projectErrors := [{ messageText := DiagnosticMessage.lbraceExpected,
                                    file := some configPath }] }] := by
    show st.projects.map (reloadProject hostBad) = _
    rw [hprojects]
    simp [hq]
  have h2 : (reloadFS (reloadFS st hostBad) hostGood).projects =
      [{ p with rootFileNames := configRootFiles configPath cfiles,
                projectErrors := [] }] := by
    show (reloadFS st hostBad).projects.map (reloadProject hostGood) = _
    rw [h1]
    simp [hr]
  refine ⟨h1, h2, ?_, ?_⟩
  · rw [h1]; rfl
  · rw [h2]; rfl

/-- The valid config content of the corruption scenario (a JSON object
with a files array naming app.ts and lib.ts). -/
def goodConfigContent : String := "\x7b\"files\":[\"app.ts\",\"lib.ts\"]\x7d"

/-- Filesystem with the valid config. -/
def goodHost : List (String × String) :=
  [("/a/b/app.ts", ""), ("/a/b/lib.ts", ""), ("/a/b/tsconfig.json", goodConfigContent)]

/-- Filesystem with the corrupted config (first character dropped). -/
def badHost : List (String × String) :=
  [("/a/b/app.ts", ""), ("/a/b/lib.ts", ""),
   ("/a/b/tsconfig.json", dropFirstChar goodConfigContent)]

/-- The server after opening app.ts under the valid config: one
Configured project. -/
def configuredState : ServerState :=
  openClientFile { emptyState with host := goodHost } "/a/b/app.ts" [] none

/-- The Configured project created in `configuredState`. -/
def configuredProject1 : Project :=
  { kind := ProjectKind.configuredKind, projectName := "/a/b/tsconfig.json", id := 1,
    rootFileNames := ["/a/b/app.ts", "/a/b/lib.ts"], options := {}, projectErrors := [] }

theorem corrupted_config_roundtrip_witness :
    configuredState.projects = [configuredProject1] ∧
    configuredProject1.kind = ProjectKind.configuredKind ∧
    configuredProject1.projectName = "/a/b/tsconfig.json" ∧
    hostRead goodHost "/a/b/tsconfig.json" = some goodConfigContent ∧
    hostRead badHost "/a/b/tsconfig.json" = some (dropFirstChar goodConfigContent) ∧
    parseConfig goodConfigContent = Except.ok ["app.ts", "lib.ts"] ∧
    parseConfig (dropFirstChar goodConfigContent) =
      Except.error DiagnosticMessage.lbraceExpected ∧
    (∀ f ∈ configRootFiles "/a/b/tsconfig.json" ["app.ts", "lib.ts"],
      hostHas goodHost f = true) ∧
    ((reloadFS configuredState badHost).projects =
      [{ configuredProject1 with
          projectErrors := [{ messageText := DiagnosticMessage.lbraceExpected,
                              file := some "/a/b/tsconfig.json" }] }] ∧
     (reloadFS (reloadFS configuredState badHost) goodHost).projects =
      [{ configuredProject1 with
          rootFileNames := configRootFiles "/a/b/tsconfig.json" ["app.ts", "lib.ts"],
          projectErrors := [] }] ∧
     (reloadFS configuredState badHost).projects.map Project.id =
       [configuredProject1.id] ∧
     (reloadFS (reloadFS configuredState badHost) goodHost).projects.map Project.id =
       [configuredProject1.id]) :=
  ⟨by decide, by decide, by decide, by decide, by decide, by rfl, by rfl, by decide,
   corrupted_config_roundtrip configuredState configuredProject1 "/a/b/tsconfig.json"
     goodConfigContent ["app.ts", "lib.ts"] goodHost badHost
     (by decide) (by decide) (by decide) (by decide) (by decide) (by rfl) (by rfl)
     (by decide)⟩

/-! ## C10 — the two error-query surfaces disagree on config parse errors -/

/-- C10: for a project whose config failed to parse (its error list is
exactly the parse diagnostic tagged with the config path), the
synchronizeProjectList answer still contains an entry for the project
(named by the config path) whose carried projectErrors list is empty,
while getAllProjectErrors on the project returns the parse diagnostic —
the synchronized entry carries only global (untagged) errors, so the two
surfaces disagree by construction. -/
theorem sync_list_hides_config_parse_errors (st : ServerState) (p : Project)
    (configPath : String)
    (hmem : p ∈ st.projects)
    (herr : p.projectErrors =
      [{ messageText := DiagnosticMessage.lbraceExpected, file := some configPath }]) :
    ProjectFilesWithTSDiagnostics.mk p.projectName [] ∈ synchronizeProjectList st ∧
    getAllProjectErrors p =
      [{ messageText := DiagnosticMessage.lbraceExpected, file := some configPath }] := by
  constructor
  · unfold synchronizeProjectList
    refine List.mem_map.mpr ⟨p, hmem, ?_⟩
    simp [getGlobalProjectErrors, herr]
  · exact herr

/-- The Configured project of the corruption scenario after the config
was corrupted and re-synchronized. -/
def corruptedProject : Project :=
  { configuredProject1 with
      projectErrors := [{ messageText := DiagnosticMessage.lbraceExpected,
                          file := some "/a/b/tsconfig.json" }] }

theorem sync_list_hides_config_parse_errors_witness :
    corruptedProject ∈ (reloadFS configuredState badHost).projects ∧
    corruptedProject.projectErrors =
      [{ messageText := DiagnosticMessage.lbraceExpected,
         file := some "/a/b/tsconfig.json" }] ∧
    (ProjectFilesWithTSDiagnostics.mk corruptedProject.projectName [] ∈
        synchronizeProjectList (reloadFS configuredState badHost) ∧
      getAllProjectErrors corruptedProject =
        [{ messageText := DiagnosticMessage.lbraceExpected,
           file := some "/a/b/tsconfig.json" }]) :=
  ⟨by decide, by decide,
   sync_list_hides_config_parse_errors (reloadFS configuredState badHost)
     corruptedProject "/a/b/tsconfig.json" (by decide) (by decide)⟩

/-! ## C4 — missing-file symmetry -/

/-- Appending a project with the looked-up name to a list that does not
contain the name finds exactly the appended project. -/
theorem find?_projects_append_singleton (l : List Project) (name : String)
    (q : Project) (hl : l.find? (fun p => p.projectName == name) = none)
    (hq : q.projectName = name) :
    (l ++ [q]).find? (fun p => p.projectName == name) = some q := by
  rw [List.find?_append, hl]
  simp [List.find?, hq]

/-- Looking a project up by name after a name-preserving per-project map
finds the image of the project found before the map. -/
theorem findProject_after_map (g : Project → Project) (st : ServerState)
    (name : String) (hg : ∀ q, (g q).projectName = q.projectName) (p : Project)
    (hfind : findProject st name = some p) :
    (st.projects.map g).find? (fun q => q.projectName == name) = some (g p) := by
  rw [List.find?_map]
  have hcomp : ((fun q : Project => q.projectName == name) ∘ g) =
      (fun q : Project => q.projectName == name) := by
    funext q
    show ((g q).projectName == name) = _
    rw [hg]
  rw [hcomp]
  unfold findProject at hfind
  rw [hfind]
  rfl

/-- C4: a project whose declared root-file set has exactly one file absent
is still created, with exactly one File-not-found entry for the absent
file; once the file exists on disk and the project re-synchronizes, the
entry is removed and none is added. The first two conjuncts show this for
an External project created by openExternalProject (creation is not
blocked: the project is found under its name); the last two for a
Configured project created from a parsed config and re-synchronized by
reloadProject. -/
theorem missing_file_symmetry (st : ServerState) (name : String)
    (rootFiles : List String) (options : CompilerOptions) (missing : String)
    (hostAfter : List (String × String))
    (hnew : findProject st name = none)
    (hmiss : rootFiles.filter (fun f => !(hostHas st.host f)) = [missing])
    (hall : ∀ f ∈ rootFiles, hostHas hostAfter f = true)
    (configPath CB : String) (cfilesB : List String) (idB : Nat) (missingB : String)
    (hostB hostB2 : List (String × String))
    (hreadB : hostRead hostB configPath = some CB)
    (hCBok : parseConfig CB = Except.ok cfilesB)
    (hmissB : (configRootFiles configPath cfilesB).filter
      (fun f => !(hostHas hostB f)) = [missingB])
    (hreadB2 : hostRead hostB2 configPath = some CB)
    (hallB : ∀ f ∈ configRootFiles configPath cfilesB, hostHas hostB2 f = true) :
    (∃ q, findProject (openExternalProject st name rootFiles options) name = some q ∧
       getAllProjectErrors q =
         [{ messageText := DiagnosticMessage.File_0_not_found missing }]) ∧
    (∃ q, findProject (reloadFS (openExternalProject st name rootFiles options)
        hostAfter) name = some q ∧ getAllProjectErrors q = []) ∧
    getAllProjectErrors (loadConfiguredProject hostB configPath idB) =
      [{ messageText := DiagnosticMessage.File_0_not_found missingB }] ∧
    getAllProjectErrors (reloadProject hostB2 (loadConfiguredProject hostB configPath idB)) =
      [] := by
  have hextMiss : missingRootErrors st.host rootFiles =
      [{ messageText := DiagnosticMessage.File_0_not_found missing }] := by
    unfold missingRootErrors
    rw [hmiss]
    rfl
  have hext : openExternalProject st name rootFiles options =
      { st with
        projects := st.projects ++
          [{ kind := ProjectKind.externalKind, projectName := name,
             id := st.nextId, rootFileNames := rootFiles, options := options,
             projectErrors := missingRootErrors st.host rootFiles }],
        nextId := st.nextId + 1 } := by
    simp only [openExternalProject, hnew]
  have hfindNew : findProject (openExternalProject st name rootFiles options) name =
      some { kind := ProjectKind.externalKind, projectName := name,
             id := st.nextId, rootFileNames := rootFiles, options := options,
             projectErrors := missingRootErrors st.host rootFiles } := by
    rw [hext]
    exact find?_projects_append_singleton st.projects name _ hnew rfl
  refine ⟨?_, ?_, ?_, ?_⟩
  · exact ⟨_, hfindNew, by rw [getAllProjectErrors, hextMiss]⟩
  · refine ⟨reloadProject hostAfter
      { kind := ProjectKind.externalKind, projectName := name,
        id := st.nextId, rootFileNames := rootFiles, options := options,
        projectErrors := missingRootErrors st.host rootFiles }, ?_, ?_⟩
    · exact findProject_after_map (reloadProject hostAfter)
        (openExternalProject st name rootFiles options) name
        (fun q => reloadProject_projectName hostAfter q) _ hfindNew
    · show (reloadProject hostAfter _).projectErrors = []
      simp only [reloadProject]
      rw [missingRootErrors_nil hostAfter rootFiles hall]
  · unfold loadConfiguredProject
    rw [hreadB]
    simp only [hCBok]
    show missingRootErrors hostB (configRootFiles configPath cfilesB) = _
    unfold missingRootErrors
    rw [hmissB]
    rfl
  · have hload : loadConfiguredProject hostB configPath idB =
        { kind := ProjectKind.configuredKind, projectName := configPath, id := idB,
          rootFileNames := configRootFiles configPath cfilesB, options := {},
          projectErrors :=
            missingRootErrors hostB (configRootFiles configPath cfilesB) } := by
      unfold loadConfiguredProject
      rw [hreadB]
      simp only [hCBok]
    rw [hload]
    show (reloadProject hostB2 _).projectErrors = []
    simp only [reloadProject, hreadB2, hCBok]
    rw [missingRootErrors_nil hostB2 _ hallB]

/-- Filesystem of the external missing-file scenario: applib.ts absent. -/
def extHost : List (String × String) := [("/a/b/app.ts", "")]

/-- The same filesystem after applib.ts appears. -/
def extHostAfter : List (String × String) := [("/a/b/app.ts", ""), ("/a/b/applib.ts", "")]

/-- A server over `extHost` with no projects yet. -/
def extState : ServerState := { emptyState with host := extHost }

/-- Config declaring app.ts and applib.ts. -/
def cfgContent2 : String := "\x7b\"files\":[\"app.ts\",\"applib.ts\"]\x7d"

/-- Filesystem with the config and app.ts but no applib.ts. -/
def cfgHostB : List (String × String) :=
  [("/a/b/app.ts", ""), ("/a/b/tsconfig.json", cfgContent2)]

/-- The same filesystem after applib.ts appears. -/
def cfgHostB2 : List (String × String) :=
  [("/a/b/app.ts", ""), ("/a/b/applib.ts", ""), ("/a/b/tsconfig.json", cfgContent2)]

theorem missing_file_symmetry_witness :
    findProject extState "/a/b/test.csproj" = none ∧
    ["/a/b/app.ts", "/a/b/applib.ts"].filter (fun f => !(hostHas extState.host f)) =
      ["/a/b/applib.ts"] ∧
    (∀ f ∈ ["/a/b/app.ts", "/a/b/applib.ts"], hostHas extHostAfter f = true) ∧
    hostRead cfgHostB "/a/b/tsconfig.json" = some cfgContent2 ∧
    parseConfig cfgContent2 = Except.ok ["app.ts", "applib.ts"] ∧
    (configRootFiles "/a/b/tsconfig.json" ["app.ts", "applib.ts"]).filter
      (fun f => !(hostHas cfgHostB f)) = ["/a/b/applib.ts"] ∧
    hostRead cfgHostB2 "/a/b/tsconfig.json" = some cfgContent2 ∧
    (∀ f ∈ configRootFiles "/a/b/tsconfig.json" ["app.ts", "applib.ts"],
      hostHas cfgHostB2 f = true) ∧
    ((∃ q, findProject (openExternalProject extState "/a/b/test.csproj"
          ["/a/b/app.ts", "/a/b/applib.ts"] {}) "/a/b/test.csproj" = some q ∧
        getAllProjectErrors q =
          [{ messageText := DiagnosticMessage.File_0_not_found "/a/b/applib.ts" }]) ∧
     (∃ q, findProject (reloadFS (openExternalProject extState "/a/b/test.csproj"
          ["/a/b/app.ts", "/a/b/applib.ts"] {}) extHostAfter) "/a/b/test.csproj" =
            some q ∧ getAllProjectErrors q = []) ∧
     getAllProjectErrors (loadConfiguredProject cfgHostB "/a/b/tsconfig.json" 1) =
       [{ messageText := DiagnosticMessage.File_0_not_found "/a/b/applib.ts" }] ∧
     getAllProjectErrors
       (reloadProject cfgHostB2 (loadConfiguredProject cfgHostB "/a/b/tsconfig.json" 1)) =
       []) :=
  ⟨by decide, by decide, by decide, by decide, by rfl, by decide, by decide, by decide,
   missing_file_symmetry extState "/a/b/test.csproj" ["/a/b/app.ts", "/a/b/applib.ts"]
     {} "/a/b/applib.ts" extHostAfter (by decide) (by decide) (by decide)
     "/a/b/tsconfig.json" cfgContent2 ["app.ts", "applib.ts"] 1 "/a/b/applib.ts"
     cfgHostB cfgHostB2 (by decide) (by rfl) (by decide) (by decide) (by decide)⟩

/-! ## C8 — compiler-options diagnostics stay empty -/

/-- C8: the CompilerOptionsDiagnosticsFull query for a named project with
no compiler-options-level diagnostics answers the empty list (an ok
answer, not a failure); it still does after the project's compiler
options are updated, whether by setting inferred-project options or by
re-opening the external project under the same name with new options. -/
theorem compiler_options_diagnostics_empty (st : ServerState) (name : String)
    (p : Project) (options : CompilerOptions)
    (hfind : findProject st name = some p)
    (herr : p.projectErrors = [])
    (hroots : ∀ f ∈ p.rootFileNames, hostHas st.host f = true) :
    compilerOptionsDiagnosticsFull st name = Except.ok [] ∧
    compilerOptionsDiagnosticsFull (setCompilerOptionsForInferredProjects st options)
      name = Except.ok [] ∧
    compilerOptionsDiagnosticsFull
      (openExternalProject st name p.rootFileNames options) name = Except.ok [] := by
  have hfind' : st.projects.find? (fun q => q.projectName == name) = some p := hfind
  have hpname0 := List.find?_some hfind'
  have hpname : (p.projectName == name) = true := hpname0
  refine ⟨?_, ?_, ?_⟩
  · unfold compilerOptionsDiagnosticsFull
    rw [hfind]
    simp [herr, engineCompilerOptionsDiagnostics]
  · have hgname : ∀ q : Project,
        ((if q.kind == ProjectKind.inferredKind then { q with options := options }
          else q) : Project).projectName = q.projectName := by
      intro q
      by_cases h : (q.kind == ProjectKind.inferredKind) = true <;> simp [h]
    have hf2 : findProject (setCompilerOptionsForInferredProjects st options) name =
        some (if p.kind == ProjectKind.inferredKind then { p with options := options }
          else p) :=
      findProject_after_map _ st name hgname p hfind
    unfold compilerOptionsDiagnosticsFull
    rw [hf2]
    by_cases h : (p.kind == ProjectKind.inferredKind) = true <;>
      simp [h, herr, engineCompilerOptionsDiagnostics]
  · have hgname : ∀ q : Project,
        ((if q.projectName == name then
            { kind := ProjectKind.externalKind, projectName := name,
              id := p.id, rootFileNames := p.rootFileNames, options := options,
              projectErrors := missingRootErrors st.host p.rootFileNames }
          else q) : Project).projectName = q.projectName := by
      intro q
      by_cases h : (q.projectName == name) = true
      · simp only [h, if_true]
        exact (eq_of_beq h).symm
      · simp [h]
    have hopen : openExternalProject st name p.rootFileNames options =
        { st with projects := st.projects.map (fun q =>
            if q.projectName == name then
              { kind := ProjectKind.externalKind, projectName := name,
                id := p.id, rootFileNames := p.rootFileNames, options := options,
                projectErrors := missingRootErrors st.host p.rootFileNames }
            else q) } := by
      simp only [openExternalProject, hfind]
    have hf3 : findProject (openExternalProject st name p.rootFileNames options) name =
        some (if p.projectName == name then
            { kind := ProjectKind.externalKind, projectName := name,
              id := p.id, rootFileNames := p.rootFileNames, options := options,
              projectErrors := missingRootErrors st.host p.rootFileNames }
          else p) := by
      rw [hopen]
      exact findProject_after_map _ st name hgname p hfind
    unfold compilerOptionsDiagnosticsFull
    rw [hf3]
    simp [hpname, missingRootErrors_nil st.host p.rootFileNames hroots,
      engineCompilerOptionsDiagnostics]

/-- A server with one external project over one existing file. -/
def extProjState : ServerState :=
  openExternalProject { emptyState with host := [("/a/b/f1.js", "function t()")] }
    "/a/b/project.csproj" ["/a/b/f1.js"] {}

theorem compiler_options_diagnostics_empty_witness :
    findProject extProjState "/a/b/project.csproj" =
      some { kind := ProjectKind.externalKind, projectName := "/a/b/project.csproj",
             id := 1, rootFileNames := ["/a/b/f1.js"], options := {},
             projectErrors := [] } ∧
    (∀ f ∈ ["/a/b/f1.js"], hostHas extProjState.host f = true) ∧
    (compilerOptionsDiagnosticsFull extProjState "/a/b/project.csproj" =
        Except.ok [] ∧
     compilerOptionsDiagnosticsFull
       (setCompilerOptionsForInferredProjects extProjState { module := some "commonjs" })
       "/a/b/project.csproj" = Except.ok [] ∧
     compilerOptionsDiagnosticsFull
       (openExternalProject extProjState "/a/b/project.csproj" ["/a/b/f1.js"]
         { module := some "commonjs" }) "/a/b/project.csproj" = Except.ok []) :=
  ⟨by decide, by decide,
   compiler_options_diagnostics_empty extProjState "/a/b/project.csproj"
     { kind := ProjectKind.externalKind, projectName := "/a/b/project.csproj",
       id := 1, rootFileNames := ["/a/b/f1.js"], options := {}, projectErrors := [] }
     { module := some "commonjs" } (by decide) (by decide) (by decide)⟩

/-! ## C9 — untitled files under inferred-project-per-project-root -/

/-- C9: with grouping of inferred projects by declared project root
enabled, opening an untitled (non-rooted, not on disk) file creates a
ScriptInfo and exactly one Inferred project home. With a projectRootPath
supplied, the ScriptInfo is keyed under the declared root
(`normalizedPathKey (some r) u`, i.e. the lower-cased root-resolved path)
and no ScriptInfo exists under the filesystem root; with none supplied it
is keyed under the filesystem root and none exists under any declared
root `r` (the root is universally quantified). -/
theorem untitled_file_grouping (st : ServerState) (u r : String)
    (refs : List Reference)
    (hflag : st.useInferredProjectPerProjectRoot = true)
    (hinfos : st.scriptInfos = [])
    (hprojects : st.projects = [])
    (hnoconfigA : findConfigFile st.host (resolvedFileName (some r) u) = none)
    (hnoconfigB : findConfigFile st.host (resolvedFileName none u) = none)
    (hne : normalizedPathKey (some r) u ≠ normalizedPathKey none u) :
    (getScriptInfoForPath (openClientFile st u refs (some r))
        (normalizedPathKey (some r) u) =
        some { fileName := u, path := normalizedPathKey (some r) u, refs := refs } ∧
     getScriptInfoForPath (openClientFile st u refs (some r))
        (normalizedPathKey none u) = none ∧
     (openClientFile st u refs (some r)).projects =
       [{ kind := ProjectKind.inferredKind, projectName := r, id := st.nextId,
          rootFileNames := [u], options := {}, projectErrors := [] }]) ∧
    (getScriptInfoForPath (openClientFile st u refs none)
        (normalizedPathKey none u) =
        some { fileName := u, path := normalizedPathKey none u, refs := refs } ∧
     getScriptInfoForPath (openClientFile st u refs none)
        (normalizedPathKey (some r) u) = none ∧
     (openClientFile st u refs none).projects =
       [{ kind := ProjectKind.inferredKind, projectName := "", id := st.nextId,
          rootFileNames := [u], options := {}, projectErrors := [] }]) := by
  have hkeyA : (normalizedPathKey (some r) u == normalizedPathKey (some r) u) = true :=
    beq_self_eq_true _
  have hkeyAB : (normalizedPathKey (some r) u == normalizedPathKey none u) = false :=
    beq_eq_false_iff_ne.mpr hne
  have hkeyBA : (normalizedPathKey none u == normalizedPathKey (some r) u) = false :=
    beq_eq_false_iff_ne.mpr (fun h => hne h.symm)
  have hopenA : openClientFile st u refs (some r) =
      { st with
        scriptInfos := st.scriptInfos ++
          [{ fileName := u, path := normalizedPathKey (some r) u, refs := refs }],
        openFileNames := st.openFileNames ++ [u],
        projects := st.projects ++
          [{ kind := ProjectKind.inferredKind, projectName := r, id := st.nextId,
             rootFileNames := [u], options := {}, projectErrors := [] }],
        nextId := st.nextId + 1 } := by
    simp only [openClientFile, hnoconfigA, hprojects, hflag, inferredProjectKey,
      List.any_nil, Bool.false_eq_true, if_false, if_true, Option.getD_some]
  have hopenB : openClientFile st u refs none =
      { st with
        scriptInfos := st.scriptInfos ++
          [{ fileName := u, path := normalizedPathKey none u, refs := refs }],
        openFileNames := st.openFileNames ++ [u],
        projects := st.projects ++
          [{ kind := ProjectKind.inferredKind, projectName := "", id := st.nextId,
             rootFileNames := [u], options := {}, projectErrors := [] }],
        nextId := st.nextId + 1 } := by
    simp only [openClientFile, hnoconfigB, hprojects, hflag, inferredProjectKey,
      List.any_nil, Bool.false_eq_true, if_false, if_true, Option.getD_none]
  refine ⟨⟨?_, ?_, ?_⟩, ⟨?_, ?_, ?_⟩⟩
  · rw [hopenA]
    unfold getScriptInfoForPath
    simp [hinfos, List.find?, hkeyA]
  · rw [hopenA]
    unfold getScriptInfoForPath
    simp [hinfos, List.find?, hkeyAB]
  · rw [hopenA]
    simp [hprojects]
  · rw [hopenB]
    unfold getScriptInfoForPath
    simp [hinfos, List.find?]
  · rw [hopenB]
    unfold getScriptInfoForPath
    simp [hinfos, List.find?, hkeyBA]
  · rw [hopenB]
    simp [hprojects]

/-- A fresh server with grouping by project root enabled and two files on
disk, neither of which is a config file. -/
def groupingState : ServerState :=
  { emptyState with
    useInferredProjectPerProjectRoot := true,
    host := [("/src/somefile.d.ts", "class c"),
             ("/user/someuser/projects/someFolder/src/somefile.d.ts", "class c")] }

theorem untitled_file_grouping_witness :
    groupingState.useInferredProjectPerProjectRoot = true ∧
    groupingState.scriptInfos = [] ∧
    groupingState.projects = [] ∧
    findConfigFile groupingState.host
      (resolvedFileName (some "/user/someuser/projects/someFolder")
        "untitled:Untitled-1") = none ∧
    findConfigFile groupingState.host
      (resolvedFileName none "untitled:Untitled-1") = none ∧
    normalizedPathKey (some "/user/someuser/projects/someFolder") "untitled:Untitled-1" ≠
      normalizedPathKey none "untitled:Untitled-1" ∧
    ((getScriptInfoForPath
        (openClientFile groupingState "untitled:Untitled-1" [] (some "/user/someuser/projects/someFolder"))
        (normalizedPathKey (some "/user/someuser/projects/someFolder") "untitled:Untitled-1") =
        some { fileName := "untitled:Untitled-1",
               path := normalizedPathKey (some "/user/someuser/projects/someFolder")
                 "untitled:Untitled-1",
               refs := [] } ∧
      getScriptInfoForPath
        (openClientFile groupingState "untitled:Untitled-1" [] (some "/user/someuser/projects/someFolder"))
        (normalizedPathKey none "untitled:Untitled-1") = none ∧
      (openClientFile groupingState "untitled:Untitled-1" []
          (some "/user/someuser/projects/someFolder")).projects =
        [{ kind := ProjectKind.inferredKind,
           projectName := "/user/someuser/projects/someFolder", id := 1,
           rootFileNames := ["untitled:Untitled-1"], options := {},
           projectErrors := [] }]) ∧
     (getScriptInfoForPath
        (openClientFile groupingState "untitled:Untitled-1" [] none)
        (normalizedPathKey none "untitled:Untitled-1") =
        some { fileName := "untitled:Untitled-1",
               path := normalizedPathKey none "untitled:Untitled-1", refs := [] } ∧
      getScriptInfoForPath
        (openClientFile groupingState "untitled:Untitled-1" [] none)
        (normalizedPathKey (some "/user/someuser/projects/someFolder")
          "untitled:Untitled-1") = none ∧
      (openClientFile groupingState "untitled:Untitled-1" [] none).projects =
        [{ kind := ProjectKind.inferredKind, projectName := "", id := 1,
           rootFileNames := ["untitled:Untitled-1"], options := {},
           projectErrors := [] }])) :=
  ⟨by decide, by decide, by decide, by decide, by decide, by decide,
   untitled_file_grouping groupingState "untitled:Untitled-1"
     "/user/someuser/projects/someFolder" [] (by decide) (by decide) (by decide)
     (by decide) (by decide) (by decide)⟩

end TsProjectSystem
